import Mathlib

/-!
Verification development for the technyc-demo image generation app.

The embedding covers:
* a small model of JavaScript runtime values, as far as the request
  validators inspect them (truthiness, `typeof`, `Array.isArray`, string
  length, property access);
* `validateGenerateImageRequest` (src/app/api/generate-image/validation.ts)
  and `validateEditImageRequest` (edit route validation);
* the two POST route handlers and their provider lookup tables;
* the image utilities `fileToDataUrl` / `dataUrlToFile` /
  `getMediaTypeFromDataUrl` (src/lib/image-utils.ts), with the browser
  builtins `FileReader.readAsDataURL` and `atob` modelled as standard
  base64 coders;
* the pre-upstream behaviour of the edit handlers `handleOpenAIEdit` and
  `handleGoogleEdit`;
* the job lifecycle controller `handleSubmit`
  (src/components/image-generator.tsx), embedded as a function from the
  submission message, an environment fixing the outcomes of the
  asynchronous steps, and the previous history, to the final history and
  the ordered trace of observable events.
-/

namespace Spec2Proof

/-- Model of a JavaScript runtime value, restricted to the shapes the
request validators can distinguish. -/
inductive JSValue where
  | undefinedVal
  | null
  | boolean (b : Bool)
  | number (n : Int)
  | str (s : String)
  | arr (elems : List JSValue)
  | obj (fields : List (String × JSValue))

/-- JavaScript truthiness: `undefined`, `null`, `false`, `0` and `""` are
falsy; every object (arrays included) is truthy. -/
def jsTruthy : JSValue → Bool
  | .undefinedVal => false
  | .null => false
  | .boolean b => b
  | .number n => n != 0
  | .str s => s != ""
  | .arr _ => true
  | .obj _ => true

/-- JavaScript `typeof`; note `typeof null` is `"object"`. -/
def jsTypeof : JSValue → String
  | .undefinedVal => "undefined"
  | .null => "object"
  | .boolean _ => "boolean"
  | .number _ => "number"
  | .str _ => "string"
  | .arr _ => "object"
  | .obj _ => "object"

/-- JavaScript `Array.isArray`. -/
def jsIsArray : JSValue → Bool
  | .arr _ => true
  | _ => false

/-- Property lookup on an object's field list; missing keys give
`undefined`. -/
def lookupField : List (String × JSValue) → String → JSValue
  | [], _ => .undefinedVal
  | (k, v) :: rest, key => if k = key then v else lookupField rest key

/-- Property access `body.key` (destructuring reads): `undefined` on
non-objects and missing keys. -/
def getField : JSValue → String → JSValue
  | .obj fields, key => lookupField fields key
  | _, _ => .undefinedVal

/-- `.length` of a JS string value (only read behind a `typeof` string
guard in the source). -/
def jsStrLen : JSValue → Nat
  | .str s => s.length
  | _ => 0

/-- Strict equality `v === s` of a JS value against a string literal, as
used by `Array.prototype.includes` in the validators. -/
def jsIsStrEq (v : JSValue) (s : String) : Bool :=
  match v with
  | .str t => t = s
  | _ => false

/-- `{ message, status }` error payload of the validators. -/
structure ValidationError where
  message : String
  status : Nat
deriving DecidableEq, Repr

/-- Result shape of both validators. -/
structure ValidationResult where
  isValid : Bool
  error : Option ValidationError
deriving DecidableEq, Repr

/-- The two supported model/provider discriminants. -/
def validModels : List String := ["openai", "gemini"]

/-- Embedding of `validateGenerateImageRequest`
(src/app/api/generate-image/validation.ts). -/
def validateGenerateImageRequest (body : JSValue) : ValidationResult :=
  if jsTruthy body = false ∨ jsTypeof body ≠ "object" then
    ⟨false, some ⟨"Invalid request body", 400⟩⟩
  else
    let prompt := getField body "prompt"
    let model := getField body "model"
    if jsTruthy prompt = false ∨ jsTypeof prompt ≠ "string" then
      ⟨false, some ⟨"Prompt is required", 400⟩⟩
    else if jsStrLen prompt < 3 ∨ jsStrLen prompt > 1000 then
      ⟨false, some ⟨"Prompt must be 3-1000 characters", 400⟩⟩
    else if jsTruthy model = false ∨ (validModels.any (fun s => jsIsStrEq model s)) = false then
      ⟨false, some ⟨"Model must be: openai, gemini", 400⟩⟩
    else
      ⟨true, none⟩

/-- `.length` of a JS array value (only read behind an `Array.isArray`
guard in the source). -/
def jsArrLen : JSValue → Nat
  | .arr elems => elems.length
  | _ => 0

/-- `Array.prototype.every` with a decidable element predicate. -/
def jsEvery (v : JSValue) (p : JSValue → Prop) [DecidablePred p] : Bool :=
  match v with
  | .arr elems => elems.all (fun e => decide (p e))
  | _ => true

/-- Embedding of `validateEditImageRequest` (edit route validation file). -/
def validateEditImageRequest (body : JSValue) : ValidationResult :=
  if jsTruthy body = false ∨ jsTypeof body ≠ "object" then
    ⟨false, some ⟨"Invalid request body", 400⟩⟩
  else
    let prompt := getField body "prompt"
    let imageUrls := getField body "imageUrls"
    let provider := getField body "provider"
    if jsTruthy provider = false ∨ (validModels.any (fun s => jsIsStrEq provider s)) = false then
      ⟨false, some ⟨"Provider must be: openai, gemini", 400⟩⟩
    else if jsTruthy prompt = false ∨ jsTypeof prompt ≠ "string" then
      ⟨false, some ⟨"Prompt is required", 400⟩⟩
    else if jsStrLen prompt < 3 ∨ jsStrLen prompt > 1000 then
      ⟨false, some ⟨"Prompt must be 3-1000 characters", 400⟩⟩
    else if jsTruthy imageUrls = false ∨ jsIsArray imageUrls = false ∨ jsArrLen imageUrls = 0 then
      ⟨false, some ⟨"At least one image is required", 400⟩⟩
    else if jsEvery imageUrls (fun u => jsTypeof u = "string") = false then
      ⟨false, some ⟨"All image URLs must be strings", 400⟩⟩
    else
      ⟨true, none⟩

/-- Spec-side contract on the prompt field: a string of length 3 to
1000. -/
def promptOk (v : JSValue) : Bool :=
  match v with
  | .str p => decide (3 ≤ p.length) && decide (p.length ≤ 1000)
  | _ => false

/-- Spec-side contract on the model/provider discriminant: one of the two
supported values. -/
def providerOk (v : JSValue) : Bool :=
  match v with
  | .str m => decide (m = "openai" ∨ m = "gemini")
  | _ => false

/-- Spec-side contract on the image-encoding list: a non-empty array whose
elements are all strings. -/
def imageUrlsOk (v : JSValue) : Bool :=
  match v with
  | .arr urls => !urls.isEmpty && urls.all (fun u => decide (jsTypeof u = "string"))
  | _ => false

/-- The validation contract for the generate route, transcribed from the
spec: the prompt field is a string of length 3 to 1000 and the model field
is one of the two supported discriminants. -/
def genValidationContract (body : JSValue) : Bool :=
  promptOk (getField body "prompt") && providerOk (getField body "model")

/-- The validation contract for the edit route, transcribed from the spec:
additionally the image-encoding list is a non-empty array whose elements
are all strings. -/
def editValidationContract (body : JSValue) : Bool :=
  promptOk (getField body "prompt") && providerOk (getField body "provider") &&
    imageUrlsOk (getField body "imageUrls")

/-- Tags for the two generation handlers held in the generate route's
`providers` table. -/
inductive GenHandlerTag where
  | handleOpenAIGenerate
  | handleGoogleGenerate
deriving DecidableEq, Repr

/-- Tags for the two edit handlers held in the edit route's `providers`
table. -/
inductive EditHandlerTag where
  | handleOpenAIEdit
  | handleGoogleEdit
deriving DecidableEq, Repr

/-- The generate route's `providers` lookup table, indexed by the raw
`model` field value. -/
def genProvidersLookup (v : JSValue) : Option GenHandlerTag :=
  if jsIsStrEq v "openai" then some .handleOpenAIGenerate
  else if jsIsStrEq v "gemini" then some .handleGoogleGenerate
  else none

/-- The edit route's `providers` lookup table, indexed by the raw
`provider` field value. -/
def editProvidersLookup (v : JSValue) : Option EditHandlerTag :=
  if jsIsStrEq v "openai" then some .handleOpenAIEdit
  else if jsIsStrEq v "gemini" then some .handleGoogleEdit
  else none

/-- Outcome of the generate route's `POST` on a parsed body: a validation
error response, the unreachable unsupported-model branch, or dispatch to a
handler. -/
inductive GenRouteOutcome where
  | errorJson (message : String) (status : Nat)
  | unsupportedModel (m : JSValue)
  | dispatched (h : GenHandlerTag) (prompt : JSValue)

/-- Outcome of the edit route's `POST` on a parsed body. -/
inductive EditRouteOutcome where
  | errorJson (message : String) (status : Nat)
  | unsupportedProvider (m : JSValue)
  | dispatched (h : EditHandlerTag) (prompt : JSValue) (imageUrls : JSValue)

/-- Embedding of the generate route's `POST` handler on an
already-parsed JSON body. -/
def generatePOST (body : JSValue) : GenRouteOutcome :=
  let validation := validateGenerateImageRequest body
  if validation.isValid = false then
    match validation.error with
    | some e => .errorJson e.message e.status
    | none => .errorJson "" 0
  else
    match genProvidersLookup (getField body "model") with
    | none => .unsupportedModel (getField body "model")
    | some h => .dispatched h (getField body "prompt")

/-- Embedding of the edit route's `POST` handler on an already-parsed
JSON body. -/
def editPOST (body : JSValue) : EditRouteOutcome :=
  let validation := validateEditImageRequest body
  if validation.isValid = false then
    match validation.error with
    | some e => .errorJson e.message e.status
    | none => .errorJson "" 0
  else
    match editProvidersLookup (getField body "provider") with
    | none => .unsupportedProvider (getField body "provider")
    | some h => .dispatched h (getField body "prompt") (getField body "imageUrls")

/-- A byte. -/
abbrev Byte := Fin 256

/-- Model of a browser `File`: its bytes, its name and its declared media
type. -/
structure EmbFile where
  bytes : List Byte
  name : String
  type : String
deriving DecidableEq, Repr

/-- The base64 alphabet in order. -/
def base64Chars : List Char :=
  ['A', 'B', 'C', 'D', 'E', 'F', 'G', 'H', 'I', 'J', 'K', 'L', 'M',
   'N', 'O', 'P', 'Q', 'R', 'S', 'T', 'U', 'V', 'W', 'X', 'Y', 'Z',
   'a', 'b', 'c', 'd', 'e', 'f', 'g', 'h', 'i', 'j', 'k', 'l', 'm',
   'n', 'o', 'p', 'q', 'r', 's', 't', 'u', 'v', 'w', 'x', 'y', 'z',
   '0', '1', '2', '3', '4', '5', '6', '7', '8', '9', '+', '/']

/-- The base64 character for a 6-bit group. -/
def base64Char (n : Nat) : Char := base64Chars.getD n '='

/-- The 6-bit group of a base64 character. -/
def base64Index (c : Char) : Nat := base64Chars.indexOf c

/-- Standard base64 encoding of a byte list, three bytes to four
characters, with `=` padding (the encoding produced by the browser's
`FileReader.readAsDataURL`). -/
def b64EncodeBytes : List Byte → List Char
  | [] => []
  | [a] =>
      [base64Char (a.val / 4), base64Char (a.val % 4 * 16), '=', '=']
  | [a, b] =>
      [base64Char (a.val / 4), base64Char (a.val % 4 * 16 + b.val / 16),
       base64Char (b.val % 16 * 4), '=']
  | a :: b :: c :: rest =>
      base64Char (a.val / 4) :: base64Char (a.val % 4 * 16 + b.val / 16) ::
      base64Char (b.val % 16 * 4 + c.val / 64) :: base64Char (c.val % 64) ::
      b64EncodeBytes rest

/-- Standard base64 decoding, four characters to three bytes, honouring
`=` padding; the browser's `atob` yields the decoded bytes as character
codes. -/
def b64DecodeChars : List Char → List Nat
  | c1 :: c2 :: c3 :: c4 :: rest =>
      let i1 := base64Index c1
      let i2 := base64Index c2
      if c3 = '=' then [i1 * 4 + i2 / 16]
      else
        let i3 := base64Index c3
        if c4 = '=' then [i1 * 4 + i2 / 16, i2 % 16 * 16 + i3 / 4]
        else
          (i1 * 4 + i2 / 16) :: (i2 % 16 * 16 + i3 / 4) ::
          (i3 % 4 * 64 + base64Index c4) :: b64DecodeChars rest
  | _ => []

/-- The browser's `atob`: base64-decode a string to a list of character
codes. -/
def atob (s : String) : List Nat := b64DecodeChars s.data

/-- `FileReader.readAsDataURL`, modelled per the platform spec: a data URL
carrying the file's media type and the base64 encoding of its bytes. -/
def readAsDataURL (f : EmbFile) : String :=
  "data:" ++ f.type ++ ";base64," ++ String.mk (b64EncodeBytes f.bytes)

/-- Embedding of `fileToDataUrl` (src/lib/image-utils.ts): resolves with
the reader's data URL for the file. -/
def fileToDataUrl (f : EmbFile) : String := readAsDataURL f

/-- Accumulator pass of JavaScript `String.prototype.split(',')`. -/
def splitCommaAux : List Char → List Char → List (List Char)
  | [], acc => [acc.reverse]
  | c :: rest, acc =>
      if c = ',' then acc.reverse :: splitCommaAux rest []
      else splitCommaAux rest (c :: acc)

/-- JavaScript `dataUrl.split(',')`. -/
def jsSplitComma (s : String) : List String :=
  (splitCommaAux s.data []).map String.mk

/-- Lazy capture of the characters between a colon and the first following
semicolon: the `(.*?)` group of the regex `:(.*?);`. -/
def mimeAfterColon : List Char → Option (List Char)
  | [] => none
  | c :: rest =>
      if c = ';' then some []
      else (mimeAfterColon rest).map (fun l => c :: l)

/-- The regex match `header.match(/:(.*?);/)?.[1]`: the text between the
first colon and the first semicolon after it, if both exist. -/
def mimeMatch : List Char → Option (List Char)
  | [] => none
  | c :: rest => if c = ':' then mimeAfterColon rest else mimeMatch rest

/-- Embedding of `dataUrlToFile` (src/lib/image-utils.ts): split the data
URL on the comma, read the media type out of the header with the regex
`:(.*?);` (defaulting to `image/png`), `atob` the base64 payload and store
its character codes into a byte array. -/
def dataUrlToFile (dataUrl : String) (filename : String) : EmbFile :=
  let parts := jsSplitComma dataUrl
  let header := parts.getD 0 ""
  let base64 := parts.getD 1 ""
  let mime :=
    match mimeMatch header.data with
    | some cs => String.mk cs
    | none => "image/png"
  let bytes := atob base64
  { bytes := bytes.map (fun n => (⟨n % 256, Nat.mod_lt _ (by decide)⟩ : Byte)),
    name := filename, type := mime }

/-- Character-list core of JavaScript `String.prototype.startsWith`. -/
def charsStartWith : List Char → List Char → Bool
  | _, [] => true
  | [], _ :: _ => false
  | c :: cs, p :: ps => c == p && charsStartWith cs ps

/-- JavaScript `s.startsWith(p)`. -/
def jsStartsWith (s p : String) : Bool := charsStartWith s.data p.data

/-- The capture group of the regex `^data:([^;]+);base64,` applied to the
text after `data:`: a non-empty run of non-semicolon characters followed
directly by `;base64,`. -/
def mediaTypeCapture (cs : List Char) : Option String :=
  let m := cs.takeWhile (fun c => c != ';')
  let rest := cs.dropWhile (fun c => c != ';')
  if m ≠ [] ∧ charsStartWith rest (";base64,".data) = true then some (String.mk m)
  else none

/-- Embedding of `getMediaTypeFromDataUrl` (src/lib/image-utils.ts). -/
def getMediaTypeFromDataUrl (dataUrl : String) : String :=
  if jsStartsWith dataUrl "data:" = false then "image/jpeg"
  else
    match mediaTypeCapture (dataUrl.data.drop 5) with
    | some m => m
    | none => "image/jpeg"

/-- A content part of the multi-modal message built by
`handleGoogleEdit`. -/
inductive GoogleContentPart where
  | textPart (text : String)
  | imagePart (image : String) (mediaType : String)
deriving DecidableEq, Repr

/-- Behaviour of `handleOpenAIEdit` up to (and excluding) its upstream
provider call: either an early error response or the upstream request it
proceeds with. -/
inductive OpenAIEditStep where
  | errorResponse (message : String) (status : Nat)
  | upstreamRequest (image : List EmbFile) (prompt : String)
deriving DecidableEq, Repr

/-- Pre-upstream behaviour of `handleOpenAIEdit` (OpenAI edit handler
file): after the token check it decodes every data URL to a file and
issues the upstream edit request; it performs no emptiness check on
`imageUrls`. -/
def handleOpenAIEditStep (token : Option String) (prompt : String)
    (imageUrls : List String) : OpenAIEditStep :=
  match token with
  | none => .errorResponse "Authentication failed. No token available." 401
  | some _ =>
      .upstreamRequest (imageUrls.map (fun url => dataUrlToFile url "image.png")) prompt

/-- Behaviour of `handleGoogleEdit` up to its upstream call. -/
inductive GoogleEditStep where
  | upstreamRequest (content : List GoogleContentPart)
deriving DecidableEq, Repr

/-- Pre-upstream behaviour of `handleGoogleEdit` (Google edit handler
file): it builds the text-plus-images content list and issues the upstream
request unconditionally; it performs no emptiness check on `imageUrls`. -/
def handleGoogleEditStep (prompt : String) (imageUrls : List String) : GoogleEditStep :=
  .upstreamRequest (.textPart prompt ::
    imageUrls.map (fun imageUrl =>
      .imagePart imageUrl (getMediaTypeFromDataUrl imageUrl)))

/-- An attachment of the submitted message, as `handleSubmit`
(src/components/image-generator.tsx) reads `message.files` entries. -/
structure FileRef where
  url : String
  mediaType : Option String
  filename : Option String
  type : String
deriving DecidableEq, Repr

/-- `f.mediaType?.startsWith('image/')`. -/
def isImageMedia (f : FileRef) : Bool :=
  match f.mediaType with
  | some m => jsStartsWith m "image/"
  | none => false

/-- The second-pass filter of `handleSubmit`: media type starts with
`image/`, or the attachment's `type` is `'file'`. -/
def isEditImageFile (f : FileRef) : Bool :=
  isImageMedia f || f.type == "file"

/-- The `GeneratedImage` record (src/lib/types.ts); optional fields are
`Option`s. -/
structure GeneratedImage where
  id : String
  imageUrl : Option String
  prompt : String
  model : Option String
  timestamp : Nat
  attachments : Option (List String)
  isEdit : Bool
  isLoading : Option Bool
  error : Option String
deriving DecidableEq, Repr

/-- Default record used only as the fallback of positional lookups. -/
def jobDefault : GeneratedImage :=
  { id := "", imageUrl := none, prompt := "", model := none, timestamp := 0,
    attachments := none, isEdit := false, isLoading := none, error := none }

/-- The decimal digit characters of JS number-to-string interpolation. -/
def decimalDigitChar : Nat → Char
  | 0 => '0' | 1 => '1' | 2 => '2' | 3 => '3' | 4 => '4'
  | 5 => '5' | 6 => '6' | 7 => '7' | 8 => '8' | _ => '9'

/-- Least-significant-first decimal digits, by structural recursion on a
fuel bound (so that concrete ids evaluate by reduction). -/
def decimalDigitsAux : Nat → Nat → List Nat
  | _, 0 => []
  | 0, _ + 1 => []
  | fuel + 1, n + 1 => ((n + 1) % 10) :: decimalDigitsAux fuel ((n + 1) / 10)

/-- Least-significant-first decimal digits of a natural number. -/
def decimalDigits (n : Nat) : List Nat := decimalDigitsAux n n

/-- Decimal rendering of a natural number, as a JS template literal
renders `Date.now()`. -/
def decimalString (n : Nat) : String :=
  if n = 0 then "0"
  else String.mk (((decimalDigits n).reverse).map decimalDigitChar)

/-- The job id generated at submission time: the template literal
`img_${Date.now()}` on the submission timestamp. -/
def generateImageId (t : Nat) : String := "img_" ++ decimalString t

/-- The fixed scene-composition prompt substituted for typed prompts in
this deployment variant. -/
def fixedPrompt : String :=
  "Place this person into a vibrant, photorealistic scene in Times Square, New York City, at golden hour. Maintain the person’s identity and pose. Blend lighting and shadows realistically with neon signage, billboards, and reflective wet pavement. Use cinematic color grading, street-level perspective, and crowd ambiance. High resolution, natural skin tones, no artifacts."

/-- Outcomes of the asynchronous steps of one submission, fixed up front
so that `handleSubmit` is a function: the per-attachment results of the
two conversion passes (indexed by position in `message.files`; `none`
means the conversion throws), the message of a second-pass conversion
error (`none` for a thrown non-`Error`), and the provider call's result
(`Except.error` carries the error's message, if any). -/
structure SubmitEnv where
  conv1 : Nat → Option String
  conv2 : Nat → Option String
  conv2Err : Option String
  api : Except (Option String) String

/-- Observable events of one submission, in program order. -/
inductive Ev where
  | fetchEncode (pass : Nat) (idx : Nat)
  | insert
  | apiCall
  | settleOk
  | settleErr
deriving DecidableEq, Repr

/-- The error message displayed for a caught value:
`error instanceof Error ? error.message : 'Failed to generate image'`. -/
def errMsgOf : Option String → String
  | some m => m
  | none => "Failed to generate image"

/-- The first-pass conversion of `handleSubmit`: every attachment whose
media type is an image is fetched and converted to a data URL; a failing
conversion falls back to the attachment's original (blob) URL. -/
def attachmentDataUrls (msg : List FileRef) (env : SubmitEnv) : List String :=
  (msg.enum.filter (fun p => isImageMedia p.2)).map
    (fun p =>
      match env.conv1 p.1 with
      | some durl => durl
      | none => p.2.url)

/-- The placeholder job inserted optimistically by `handleSubmit`. -/
def placeholderImage (msg : List FileRef) (env : SubmitEnv) (modelSel : String)
    (t : Nat) : GeneratedImage :=
  { id := generateImageId t
  , imageUrl := none
  , prompt := fixedPrompt
  , model := some modelSel
  , timestamp := t
  , attachments := if msg.length > 0 then some (attachmentDataUrls msg env) else none
  , isEdit := true
  , isLoading := some true
  , error := none }

/-- The success reconciliation of `handleSubmit`: replace the job with the
matching id by a copy carrying the result image and a cleared loading
flag. -/
def settleSuccess (imageId url : String) (hist : List GeneratedImage) :
    List GeneratedImage :=
  hist.map (fun img =>
    if img.id = imageId then { img with imageUrl := some url, isLoading := some false }
    else img)

/-- The failure reconciliation of `handleSubmit`: replace the job with the
matching id by a copy carrying a cleared loading flag and the error
message. -/
def settleFailure (imageId msg : String) (hist : List GeneratedImage) :
    List GeneratedImage :=
  hist.map (fun img =>
    if img.id = imageId then { img with isLoading := some false, error := some msg }
    else img)

/-- Either of the two reconciliations, selected by the settlement outcome:
`Sum.inl` carries a result image URL, `Sum.inr` an error message. -/
def applySettle (imageId : String) : Sum String String →
    List GeneratedImage → List GeneratedImage
  | Sum.inl url => settleSuccess imageId url
  | Sum.inr m => settleFailure imageId m

/-- Embedding of `handleSubmit` (src/components/image-generator.tsx) as a
function from the message, the submission environment, the selected model
and the timestamp to the final history and the ordered trace of events.
Mirrors the source's control flow: early silent returns unless exactly one
attachment is present; first conversion pass (awaited); optimistic insert
at the head; second-pass filter with the no-image-files error; second
conversion pass (rethrown on failure); provider call; reconciliation by
id. -/
def handleSubmit (msg : List FileRef) (env : SubmitEnv) (modelSel : String)
    (t : Nat) (prev : List GeneratedImage) : List GeneratedImage × List Ev :=
  if msg.length = 0 then (prev, [])
  else if 1 < msg.length then (prev, [])
  else
    let imageId := generateImageId t
    let pass1 := msg.enum.filter (fun p => isImageMedia p.2)
    let evs1 := pass1.map (fun p => Ev.fetchEncode 1 p.1)
    let hist1 := placeholderImage msg env modelSel t :: prev
    let imageFiles := msg.enum.filter (fun p => isEditImageFile p.2)
    if imageFiles.isEmpty then
      (settleFailure imageId "No image files found in attachments" hist1,
       evs1 ++ [Ev.insert, Ev.settleErr])
    else
      let evs2 := imageFiles.map (fun p => Ev.fetchEncode 2 p.1)
      if imageFiles.all (fun p => (env.conv2 p.1).isSome) then
        match env.api with
        | Except.ok url =>
            (settleSuccess imageId url hist1,
             evs1 ++ Ev.insert :: evs2 ++ [Ev.apiCall, Ev.settleOk])
        | Except.error m =>
            (settleFailure imageId (errMsgOf m) hist1,
             evs1 ++ Ev.insert :: evs2 ++ [Ev.apiCall, Ev.settleErr])
      else
        (settleFailure imageId (errMsgOf env.conv2Err) hist1,
         evs1 ++ Ev.insert :: evs2 ++ [Ev.settleErr])

/-- Pending, as the spec's state machine reads a job record: loading, no
result, no error. -/
def pendingB (j : GeneratedImage) : Bool :=
  (j.isLoading == some true) && j.imageUrl.isNone && j.error.isNone

/-- Succeeded: result present, no error. -/
def succeededB (j : GeneratedImage) : Bool :=
  j.imageUrl.isSome && j.error.isNone

/-- Failed: error present, no result. -/
def failedB (j : GeneratedImage) : Bool :=
  j.error.isSome && j.imageUrl.isNone

/-- How many of the three lifecycle states hold of a job. -/
def stateCount (j : GeneratedImage) : Nat :=
  (pendingB j).toNat + (succeededB j).toNat + (failedB j).toNat

/-- Network activity events: the attachment fetch-and-encode conversions
and the provider API call. -/
def isNetworkEv : Ev → Bool
  | .fetchEncode _ _ => true
  | .apiCall => true
  | _ => false

/-- The property claimed of a submission trace: no network activity occurs
before the optimistic insert. -/
def insertBeforeNetwork (evs : List Ev) : Bool :=
  (evs.takeWhile (fun e => e != Ev.insert)).all (fun e => !(isNetworkEv e))

/-- A concrete one-attachment submission message. -/
def msgSingle : List FileRef :=
  [{ url := "blob:xyz", mediaType := some "image/jpeg",
     filename := some "photo.jpg", type := "file" }]

/-- A different concrete one-attachment submission message. -/
def msgOther : List FileRef :=
  [{ url := "blob:other", mediaType := some "image/png",
     filename := none, type := "file" }]

/-- A submission environment in which every asynchronous step succeeds. -/
def envAllOk : SubmitEnv :=
  { conv1 := fun _ => some "data:image/jpeg;base64,AAAA"
  , conv2 := fun _ => some "data:image/jpeg;base64,AAAA"
  , conv2Err := none
  , api := Except.ok "data:image/png;base64,QUJD" }

/-- A submission environment in which only the second conversion pass
fails; the provider call itself would succeed. -/
def envConv2Fails : SubmitEnv :=
  { conv1 := fun _ => some "data:image/jpeg;base64,AAAA"
  , conv2 := fun _ => none
  , conv2Err := some "encode boom"
  , api := Except.ok "data:image/png;base64,QUJD" }

/-- Request body with a too-short prompt. -/
def bodyShort : JSValue :=
  .obj [("prompt", .str "hi"), ("model", .str "openai")]

/-- A valid generate request body. -/
def bodyValidGen : JSValue :=
  .obj [("prompt", .str "a valid prompt"), ("model", .str "openai")]

/-- Request body naming an unsupported model. -/
def bodyDalle : JSValue :=
  .obj [("prompt", .str "a valid prompt"), ("model", .str "dalle")]

/-- A valid edit request body. -/
def bodyValidEdit : JSValue :=
  .obj [("prompt", .str "a valid prompt"), ("provider", .str "gemini"),
        ("imageUrls", .arr [.str "data:image/png;base64,QUJD"])]

/-- An edit request body with an empty image list. -/
def bodyEmptyUrls : JSValue :=
  .obj [("prompt", .str "a valid prompt"), ("provider", .str "gemini"),
        ("imageUrls", .arr [])]

/-- A two-job history with distinct pending jobs. -/
def histTwo : List GeneratedImage :=
  [{ jobDefault with id := "img_1", isLoading := some true },
   { jobDefault with id := "img_2", isLoading := some true }]

theorem providerGuard_iff (v : JSValue) :
    (jsTruthy v = false ∨ (validModels.any (fun s => jsIsStrEq v s)) = false) ↔
      providerOk v = false := by
  cases v <;> simp [jsTruthy, providerOk, jsIsStrEq, validModels]
  case str m =>
    by_cases h1 : m = "openai"
    · subst h1; simp
    · by_cases h2 : m = "gemini"
      · subst h2; simp
      · simp [h1, h2]

theorem promptOk_false_of_guard (v : JSValue)
    (h : jsTruthy v = false ∨ jsTypeof v ≠ "string") : promptOk v = false := by
  cases v <;> simp_all [jsTruthy, jsTypeof, promptOk]

theorem str_of_guard_passed (v : JSValue)
    (h : ¬(jsTruthy v = false ∨ jsTypeof v ≠ "string")) : ∃ p, v = .str p := by
  cases v <;> simp_all [jsTruthy, jsTypeof]

theorem urlsOk_false_of_guard (v : JSValue)
    (h : jsTruthy v = false ∨ jsIsArray v = false ∨ jsArrLen v = 0) :
    imageUrlsOk v = false := by
  cases v <;> simp_all [jsTruthy, jsIsArray, jsArrLen, imageUrlsOk, List.isEmpty_iff,
    List.length_eq_zero]

theorem arr_of_urls_guard_passed (v : JSValue)
    (h : ¬(jsTruthy v = false ∨ jsIsArray v = false ∨ jsArrLen v = 0)) :
    ∃ l, v = .arr l ∧ l ≠ [] := by
  cases v <;> simp_all [jsTruthy, jsIsArray, jsArrLen, List.length_eq_zero]

theorem validateGen_isValid_eq (body : JSValue) :
    (validateGenerateImageRequest body).isValid = genValidationContract body := by
  cases body with
  | undefinedVal => rfl
  | null => rfl
  | boolean b => cases b <;> rfl
  | number n =>
      simp only [validateGenerateImageRequest, genValidationContract, jsTruthy, jsTypeof,
        getField, promptOk]
      split <;> rfl
  | str s =>
      simp only [validateGenerateImageRequest, genValidationContract, jsTruthy, jsTypeof,
        getField, promptOk]
      split <;> rfl
  | arr elems => rfl
  | obj fields =>
      simp only [validateGenerateImageRequest, genValidationContract, getField]
      rw [if_neg (by simp [jsTruthy, jsTypeof])]
      split_ifs with h1 h2 h3
      · simp [promptOk_false_of_guard _ h1]
      · obtain ⟨p, hp⟩ := str_of_guard_passed _ h1
        rw [hp] at h2 ⊢
        simp only [jsStrLen] at h2
        have : promptOk (.str p) = false := by
          simp only [promptOk, Bool.and_eq_false_iff, decide_eq_false_iff_not]
          omega
        simp [this]
      · simp [(providerGuard_iff _).mp h3]
      · obtain ⟨p, hp⟩ := str_of_guard_passed _ h1
        rw [hp] at h2 ⊢
        simp only [jsStrLen] at h2
        push_neg at h2
        have hprompt : promptOk (.str p) = true := by
          simp only [promptOk, Bool.and_eq_true, decide_eq_true_eq]
          omega
        have hprov : providerOk (lookupField fields "model") = true := by
          rcases h : providerOk (lookupField fields "model") with _ | _
          · exact absurd ((providerGuard_iff _).mpr h) h3
          · rfl
        simp [hprompt, hprov]

theorem validateEdit_isValid_eq (body : JSValue) :
    (validateEditImageRequest body).isValid = editValidationContract body := by
  cases body with
  | undefinedVal => rfl
  | null => rfl
  | boolean b => cases b <;> rfl
  | number n =>
      simp only [validateEditImageRequest, editValidationContract, jsTruthy, jsTypeof,
        getField, promptOk, providerOk, imageUrlsOk]
      split <;> rfl
  | str s =>
      simp only [validateEditImageRequest, editValidationContract, jsTruthy, jsTypeof,
        getField, promptOk, providerOk, imageUrlsOk]
      split <;> rfl
  | arr elems => rfl
  | obj fields =>
      simp only [validateEditImageRequest, editValidationContract, getField]
      rw [if_neg (by simp [jsTruthy, jsTypeof])]
      split_ifs with h1 h2 h3 h4 h5
      · simp [(providerGuard_iff _).mp h1]
      · simp [promptOk_false_of_guard _ h2]
      · obtain ⟨p, hp⟩ := str_of_guard_passed _ h2
        rw [hp] at h3 ⊢
        simp only [jsStrLen] at h3
        have : promptOk (.str p) = false := by
          simp only [promptOk, Bool.and_eq_false_iff, decide_eq_false_iff_not]
          omega
        simp [this]
      · simp [urlsOk_false_of_guard _ h4]
      · obtain ⟨l, hl, hne⟩ := arr_of_urls_guard_passed _ h4
        rw [hl] at h5 ⊢
        simp only [jsEvery] at h5
        have : imageUrlsOk (.arr l) = false := by
          simp only [imageUrlsOk, Bool.and_eq_false_iff]
          right
          exact h5
        simp [this]
      · obtain ⟨p, hp⟩ := str_of_guard_passed _ h2
        obtain ⟨l, hl, hlne⟩ := arr_of_urls_guard_passed _ h4
        rw [hp] at h3 ⊢
        rw [hl] at h5 ⊢
        simp only [jsStrLen] at h3
        push_neg at h3
        have hprompt : promptOk (.str p) = true := by
          simp only [promptOk, Bool.and_eq_true, decide_eq_true_eq]
          omega
        have hprov : providerOk (lookupField fields "provider") = true := by
          rcases h : providerOk (lookupField fields "provider") with _ | _
          · exact absurd ((providerGuard_iff _).mpr h) h1
          · rfl
        have hurls : imageUrlsOk (.arr l) = true := by
          simp only [jsEvery] at h5
          simp only [imageUrlsOk, Bool.and_eq_true]
          constructor
          · simpa [List.isEmpty_iff] using hlne
          · rcases h : l.all (fun u => decide (jsTypeof u = "string")) with _ | _
            · exact absurd h h5
            · rfl
        simp [hprompt, hprov, hurls]

theorem validateGen_error_status (body : JSValue)
    (h : (validateGenerateImageRequest body).isValid = false) :
    ∃ e, (validateGenerateImageRequest body).error = some e ∧ e.status = 400 := by
  revert h
  simp only [validateGenerateImageRequest]
  split_ifs <;> simp

theorem validateEdit_error_status (body : JSValue)
    (h : (validateEditImageRequest body).isValid = false) :
    ∃ e, (validateEditImageRequest body).error = some e ∧ e.status = 400 := by
  revert h
  simp only [validateEditImageRequest]
  split_ifs <;> simp

theorem decimalDigitChar_inj :
    ∀ d1 < 10, ∀ d2 < 10, decimalDigitChar d1 = decimalDigitChar d2 → d1 = d2 := by
  decide

theorem mapDigits_inj (l1 l2 : List Nat) (h1 : ∀ d ∈ l1, d < 10)
    (h2 : ∀ d ∈ l2, d < 10)
    (h : l1.map decimalDigitChar = l2.map decimalDigitChar) : l1 = l2 := by
  induction l1 generalizing l2 with
  | nil => cases l2 <;> simp_all
  | cons a t ih =>
      cases l2 with
      | nil => simp_all
      | cons b t2 =>
          simp only [List.map_cons, List.cons.injEq] at h
          have ha := h1 a (by simp)
          have hb := h2 b (by simp)
          have hab := decimalDigitChar_inj a ha b hb h.1
          subst hab
          have ht := ih t2 (fun d hd => h1 d (by simp [hd]))
            (fun d hd => h2 d (by simp [hd])) h.2
          simp [ht]

theorem decimalChars_ne_zeroStr (n : Nat) (hn : n ≠ 0) :
    String.mk (((Nat.digits 10 n).reverse).map decimalDigitChar) ≠ "0" := by
  intro h
  have hd : ((Nat.digits 10 n).reverse).map decimalDigitChar = ['0'] :=
    congrArg String.data h
  have hlen : (Nat.digits 10 n).length = 1 := by
    have := congrArg List.length hd
    simpa using this
  obtain ⟨d, hL⟩ := List.length_eq_one.mp hlen
  rw [hL] at hd
  simp only [List.reverse_singleton, List.map_cons, List.map_nil,
    List.cons.injEq, and_true] at hd
  have hdlt : d < 10 := Nat.digits_lt_base (by omega) (by rw [hL]; simp)
  have hd0 : d = 0 :=
    decimalDigitChar_inj d hdlt 0 (by omega) (by simpa using hd)
  subst hd0
  have h0 := Nat.ofDigits_digits 10 n
  rw [hL] at h0
  simp [Nat.ofDigits] at h0
  exact hn h0.symm

theorem decimalDigitsAux_eq (fuel n : Nat) (h : n ≤ fuel) :
    decimalDigitsAux fuel n = Nat.digits 10 n := by
  induction fuel generalizing n with
  | zero =>
      have : n = 0 := by omega
      subst this
      simp [decimalDigitsAux]
  | succ f ih =>
      cases n with
      | zero => simp [decimalDigitsAux]
      | succ m =>
          rw [decimalDigitsAux, ih ((m + 1) / 10) (by omega),
            Nat.digits_def' (by norm_num : 1 < 10) (Nat.succ_pos m)]

theorem decimalDigits_eq (n : Nat) : decimalDigits n = Nat.digits 10 n :=
  decimalDigitsAux_eq n n le_rfl

theorem decimalString_inj (m n : Nat) (h : decimalString m = decimalString n) :
    m = n := by
  unfold decimalString at h
  rw [decimalDigits_eq, decimalDigits_eq] at h
  by_cases hm : m = 0 <;> by_cases hn : n = 0
  · omega
  · rw [if_pos hm, if_neg hn] at h
    exact absurd h.symm (decimalChars_ne_zeroStr n hn)
  · rw [if_neg hm, if_pos hn] at h
    exact absurd h (decimalChars_ne_zeroStr m hm)
  · rw [if_neg hm, if_neg hn] at h
    have hd : ((Nat.digits 10 m).reverse).map decimalDigitChar =
        ((Nat.digits 10 n).reverse).map decimalDigitChar :=
      congrArg String.data h
    have hrev : (Nat.digits 10 m).reverse = (Nat.digits 10 n).reverse := by
      apply mapDigits_inj _ _ _ _ hd
      · intro d hdm
        exact Nat.digits_lt_base (by omega) (List.mem_reverse.mp hdm)
      · intro d hdn
        exact Nat.digits_lt_base (by omega) (List.mem_reverse.mp hdn)
    have hdig : Nat.digits 10 m = Nat.digits 10 n := by
      simpa using congrArg List.reverse hrev
    exact Nat.digits_inj_iff.mp hdig

theorem generateImageId_inj (t1 t2 : Nat) (h : generateImageId t1 = generateImageId t2) :
    t1 = t2 := by
  unfold generateImageId at h
  have hd := congrArg String.data h
  simp only [String.data_append] at hd
  have hs : (decimalString t1).data = (decimalString t2).data :=
    List.append_cancel_left hd
  exact decimalString_inj t1 t2 (String.ext hs)

theorem handleSubmit_invalid (msg : List FileRef) (env : SubmitEnv)
    (modelSel : String) (t : Nat) (prev : List GeneratedImage)
    (h : msg.length ≠ 1) : handleSubmit msg env modelSel t prev = (prev, []) := by
  unfold handleSubmit
  rcases Nat.lt_trichotomy msg.length 1 with hl | hl | hl
  · rw [if_pos (by omega)]
  · exact absurd hl h
  · rw [if_neg (by omega), if_pos (by omega)]

theorem handleSubmit_decompose (msg : List FileRef) (env : SubmitEnv)
    (modelSel : String) (t : Nat) (prev : List GeneratedImage)
    (h : msg.length = 1) :
    ∃ k rest,
      handleSubmit msg env modelSel t prev =
        (applySettle (generateImageId t) k (placeholderImage msg env modelSel t :: prev),
         ((msg.enum.filter (fun p => isImageMedia p.2)).map (fun p => Ev.fetchEncode 1 p.1))
           ++ Ev.insert :: rest) := by
  unfold handleSubmit
  rw [if_neg (by omega), if_neg (by omega)]
  by_cases hie : ((msg.enum.filter (fun p => isEditImageFile p.2)).isEmpty : Bool)
  · exact ⟨Sum.inr "No image files found in attachments", [Ev.settleErr],
      by simp [hie, applySettle]⟩
  · by_cases hall : ((msg.enum.filter (fun p => isEditImageFile p.2)).all
        (fun p => (env.conv2 p.1).isSome) : Bool)
    · cases hapi : env.api with
      | ok url =>
          exact ⟨Sum.inl url,
            (msg.enum.filter (fun p => isEditImageFile p.2)).map
              (fun p => Ev.fetchEncode 2 p.1) ++ [Ev.apiCall, Ev.settleOk],
            by simp [hie, hall, hapi, applySettle]⟩
      | error m =>
          exact ⟨Sum.inr (errMsgOf m),
            (msg.enum.filter (fun p => isEditImageFile p.2)).map
              (fun p => Ev.fetchEncode 2 p.1) ++ [Ev.apiCall, Ev.settleErr],
            by simp [hie, hall, hapi, applySettle]⟩
    · exact ⟨Sum.inr (errMsgOf env.conv2Err),
        (msg.enum.filter (fun p => isEditImageFile p.2)).map
          (fun p => Ev.fetchEncode 2 p.1) ++ [Ev.settleErr],
        by simp [hie, hall, applySettle]⟩

theorem settleSuccess_ids (imageId url : String) (hist : List GeneratedImage) :
    (settleSuccess imageId url hist).map (fun j => j.id) =
      hist.map (fun j => j.id) := by
  induction hist with
  | nil => rfl
  | cons a tl ih =>
      simp only [settleSuccess, List.map_cons] at ih ⊢
      rw [ih]
      congr 1
      split <;> rfl

theorem settleFailure_ids (imageId msg : String) (hist : List GeneratedImage) :
    (settleFailure imageId msg hist).map (fun j => j.id) =
      hist.map (fun j => j.id) := by
  induction hist with
  | nil => rfl
  | cons a tl ih =>
      simp only [settleFailure, List.map_cons] at ih ⊢
      rw [ih]
      congr 1
      split <;> rfl

theorem applySettle_ids (imageId : String) (k : Sum String String)
    (hist : List GeneratedImage) :
    (applySettle imageId k hist).map (fun j => j.id) =
      hist.map (fun j => j.id) := by
  cases k with
  | inl url => exact settleSuccess_ids imageId url hist
  | inr m => exact settleFailure_ids imageId m hist

theorem pendingB_fields (j : GeneratedImage) (h : pendingB j = true) :
    j.isLoading = some true ∧ j.imageUrl = none ∧ j.error = none := by
  simp only [pendingB, Bool.and_eq_true, beq_iff_eq, Option.isNone_iff_eq_none] at h
  exact ⟨h.1.1, h.1.2, h.2⟩

theorem terminal_exclusive (j : GeneratedImage) (h : stateCount j = 1)
    (hl : j.isLoading = some false) : (succeededB j || failedB j) = true := by
  have hp : pendingB j = false := by simp [pendingB, hl]
  unfold stateCount at h
  rw [hp] at h
  cases hs : succeededB j <;> cases hf : failedB j <;> simp_all

theorem applySettle_WF (imageId : String) (k : Sum String String)
    (hist : List GeneratedImage)
    (hWF : ∀ j ∈ hist, stateCount j = 1)
    (hmatch : ∀ j ∈ hist, j.id = imageId → pendingB j = true) :
    ∀ j ∈ applySettle imageId k hist, stateCount j = 1 := by
  intro j hj
  cases k with
  | inl url =>
      simp only [applySettle, settleSuccess, List.mem_map] at hj
      obtain ⟨j0, hj0, rfl⟩ := hj
      by_cases hid : j0.id = imageId
      · obtain ⟨-, -, herr⟩ := pendingB_fields j0 (hmatch j0 hj0 hid)
        rw [if_pos hid]
        simp [stateCount, pendingB, succeededB, failedB, herr]
      · rw [if_neg hid]
        exact hWF j0 hj0
  | inr m =>
      simp only [applySettle, settleFailure, List.mem_map] at hj
      obtain ⟨j0, hj0, rfl⟩ := hj
      by_cases hid : j0.id = imageId
      · obtain ⟨-, himg, -⟩ := pendingB_fields j0 (hmatch j0 hj0 hid)
        rw [if_pos hid]
        simp [stateCount, pendingB, succeededB, failedB, himg]
      · rw [if_neg hid]
        exact hWF j0 hj0

/-- C1: every job in the history produced by `handleSubmit` is in exactly
one of the three lifecycle states (Pending: loading, no result, no error;
Succeeded: result present, no error; Failed: error present, no result),
and once it is no longer loading exactly one of result image or error
message is present — provided the previous history satisfied the invariant
and the fresh id does not collide with an existing one. The optimistic
insert, the success reconciliation and the failure reconciliation all
preserve the invariant. -/
theorem C1_state_invariant (msg : List FileRef) (env : SubmitEnv)
    (modelSel : String) (t : Nat) (prev : List GeneratedImage)
    (hWF : ∀ j ∈ prev, stateCount j = 1)
    (hfresh : ∀ j ∈ prev, j.id ≠ generateImageId t) :
    ∀ j ∈ (handleSubmit msg env modelSel t prev).1,
      stateCount j = 1 ∧
      (j.isLoading = some false → (succeededB j || failedB j) = true) := by
  intro j hj
  by_cases h : msg.length = 1
  · obtain ⟨k, rest, heq⟩ := handleSubmit_decompose msg env modelSel t prev h
    rw [heq] at hj
    have hWF' : ∀ j0 ∈ placeholderImage msg env modelSel t :: prev,
        stateCount j0 = 1 := by
      intro j0 hj0
      rcases List.mem_cons.mp hj0 with rfl | hj0
      · simp [stateCount, pendingB, succeededB, failedB, placeholderImage]
      · exact hWF j0 hj0
    have hmatch : ∀ j0 ∈ placeholderImage msg env modelSel t :: prev,
        j0.id = generateImageId t → pendingB j0 = true := by
      intro j0 hj0 hid
      rcases List.mem_cons.mp hj0 with rfl | hj0
      · simp [pendingB, placeholderImage]
      · exact absurd hid (hfresh j0 hj0)
    have hcount := applySettle_WF (generateImageId t) k _ hWF' hmatch j hj
    exact ⟨hcount, terminal_exclusive j hcount⟩
  · rw [handleSubmit_invalid msg env modelSel t prev h] at hj
    have hcount := hWF j hj
    exact ⟨hcount, terminal_exclusive j hcount⟩

set_option maxRecDepth 4000 in
/-- C1 witness: the invariant theorem applied to a concrete submission
over the empty history, instantiated at the resulting head job. -/
theorem C1_state_invariant_witness :
    stateCount ((handleSubmit msgSingle envAllOk "gemini" 7 []).1.getD 0 jobDefault) = 1 :=
  (C1_state_invariant msgSingle envAllOk "gemini" 7 []
    (by intro j hj; cases hj) (by intro j hj; cases hj)
    ((handleSubmit msgSingle envAllOk "gemini" 7 []).1.getD 0 jobDefault)
    (by decide)).1

/-- C2 counterexample: on a concrete valid submission, network activity
(the attachment fetch-and-encode conversion) occurs strictly before the
optimistic insert, so the claim that the Pending entry is inserted before
any asynchronous network activity starts is false on the code. -/
theorem C2_counterexample :
    insertBeforeNetwork ((handleSubmit msgSingle envAllOk "gemini" 7 []).2) = false := by
  decide

/-- C2 (amended): for every valid submission the Pending job is inserted
at the head of the collection before the provider API call and before
reconciliation — the only events preceding the insert are the first-pass
attachment fetch-and-encode conversions, which the source awaits before
inserting the placeholder. -/
theorem C2_insert_before_api (msg : List FileRef) (env : SubmitEnv)
    (modelSel : String) (t : Nat) (prev : List GeneratedImage)
    (h : msg.length = 1) :
    pendingB (placeholderImage msg env modelSel t) = true ∧
    (handleSubmit msg env modelSel t prev).1.map (fun j => j.id) =
      generateImageId t :: prev.map (fun j => j.id) ∧
    ∃ pre post, (handleSubmit msg env modelSel t prev).2 = pre ++ Ev.insert :: post ∧
      ∀ e ∈ pre, ∃ i, e = Ev.fetchEncode 1 i := by
  obtain ⟨k, rest, heq⟩ := handleSubmit_decompose msg env modelSel t prev h
  refine ⟨by simp [pendingB, placeholderImage], ?_, ?_⟩
  · rw [heq]
    have := applySettle_ids (generateImageId t) k
      (placeholderImage msg env modelSel t :: prev)
    simp only [List.map_cons] at this
    simpa [placeholderImage] using this
  · refine ⟨(msg.enum.filter (fun p => isImageMedia p.2)).map
      (fun p => Ev.fetchEncode 1 p.1), rest, ?_, ?_⟩
    · rw [heq]
    · intro e he
      obtain ⟨p, -, rfl⟩ := List.mem_map.mp he
      exact ⟨p.1, rfl⟩

/-- C2 witness: the amended theorem applied to the concrete
submission. -/
theorem C2_insert_before_api_witness :
    pendingB (placeholderImage msgSingle envAllOk "gemini" 7) = true ∧
    (handleSubmit msgSingle envAllOk "gemini" 7 []).1.map (fun j => j.id) =
      generateImageId 7 :: List.map (fun j => j.id) ([] : List GeneratedImage) ∧
    ∃ pre post, (handleSubmit msgSingle envAllOk "gemini" 7 []).2 =
        pre ++ Ev.insert :: post ∧
      ∀ e ∈ pre, ∃ i, e = Ev.fetchEncode 1 i :=
  C2_insert_before_api msgSingle envAllOk "gemini" 7 [] (by decide)

/-- C3 counterexample: a failure of the second conversion pass alone (the
provider call would succeed, as the environment's `api` component shows)
is rethrown and marks the submitted job Failed, refuting the claim that an
encoding failure never by itself causes a `Failed` transition. -/
theorem C3_counterexample :
    envConv2Fails.api = Except.ok "data:image/png;base64,QUJD" ∧
    failedB ((handleSubmit msgSingle envConv2Fails "gemini" 7 []).1.getD 0 jobDefault)
      = true ∧
    ((handleSubmit msgSingle envConv2Fails "gemini" 7 []).1.getD 0 jobDefault).error
      = some "encode boom" := by
  refine ⟨rfl, ?_, ?_⟩ <;> decide

/-- C3 (amended): first-pass conversion failures are caught per attachment
and never abort the submission (the optimistic insert still happens and
the job is created, whatever `conv1` does); when the second pass succeeds
the job's outcome is determined solely by the provider call; but a
second-pass conversion failure is rethrown and marks the job Failed with
that error's message even though the provider call was never reached. -/
theorem C3_encoding_fallback (msg : List FileRef) (env : SubmitEnv)
    (modelSel : String) (t : Nat) (prev : List GeneratedImage)
    (h : msg.length = 1)
    (himg : (msg.enum.filter (fun p => isEditImageFile p.2)).isEmpty = false) :
    Ev.insert ∈ (handleSubmit msg env modelSel t prev).2 ∧
    ((msg.enum.filter (fun p => isEditImageFile p.2)).all
        (fun p => (env.conv2 p.1).isSome) = true →
      ∀ url, env.api = Except.ok url →
        succeededB ((handleSubmit msg env modelSel t prev).1.getD 0 jobDefault)
          = true) ∧
    ((msg.enum.filter (fun p => isEditImageFile p.2)).all
        (fun p => (env.conv2 p.1).isSome) = false →
      failedB ((handleSubmit msg env modelSel t prev).1.getD 0 jobDefault) = true ∧
      ((handleSubmit msg env modelSel t prev).1.getD 0 jobDefault).error =
        some (errMsgOf env.conv2Err)) := by
  refine ⟨?_, ?_, ?_⟩
  · obtain ⟨k, rest, heq⟩ := handleSubmit_decompose msg env modelSel t prev h
    rw [heq]
    simp
  · intro hall url hapi
    unfold handleSubmit
    rw [if_neg (by omega), if_neg (by omega)]
    simp only [himg, Bool.false_eq_true, if_false, hall, if_true, hapi]
    simp [settleSuccess, placeholderImage, succeededB]
  · intro hall
    unfold handleSubmit
    rw [if_neg (by omega), if_neg (by omega)]
    simp only [himg, Bool.false_eq_true, if_false, hall, if_true]
    simp [settleFailure, placeholderImage, failedB]

/-- C3 witness: the amended theorem applied to a concrete submission whose
second conversion pass fails. -/
theorem C3_encoding_fallback_witness :
    Ev.insert ∈ (handleSubmit msgSingle envConv2Fails "gemini" 7 []).2 ∧
    failedB ((handleSubmit msgSingle envConv2Fails "gemini" 7 []).1.getD 0 jobDefault)
      = true :=
  have h := C3_encoding_fallback msgSingle envConv2Fails "gemini" 7 []
    (by decide) (by decide)
  ⟨h.1, (h.2.2 (by decide)).1⟩

/-- C4 counterexample: two distinct submissions whose `Date.now()`
timestamps coincide (the same millisecond) are assigned the same job id,
refuting session-wide uniqueness of the generated id. -/
theorem C4_counterexample :
    msgSingle ≠ msgOther ∧
    (placeholderImage msgSingle envAllOk "openai" 1728000000000).id =
      (placeholderImage msgOther envConv2Fails "gemini" 1728000000000).id := by
  exact ⟨by decide, rfl⟩

/-- C4 (amended): the generated job id is unique across submissions whose
timestamps differ — `img_${Date.now()}` is injective in the timestamp, so
ids collide exactly when two submissions observe the same millisecond. -/
theorem C4_id_unique (t1 t2 : Nat) (h : t1 ≠ t2) :
    generateImageId t1 ≠ generateImageId t2 :=
  fun he => h (generateImageId_inj t1 t2 he)

/-- C4 witness: two concrete distinct timestamps give distinct ids. -/
theorem C4_id_unique_witness :
    generateImageId 1728000000000 ≠ generateImageId 1728000000001 :=
  C4_id_unique 1728000000000 1728000000001 (by decide)

/-- C9: a submission with zero attachments, or with more than one
attachment, is rejected silently: the history is unchanged (no job is
created) and no event — in particular no network call — occurs. -/
theorem C9_silent_reject (msg : List FileRef) (env : SubmitEnv)
    (modelSel : String) (t : Nat) (prev : List GeneratedImage)
    (h : msg.length ≠ 1) :
    handleSubmit msg env modelSel t prev = (prev, []) :=
  handleSubmit_invalid msg env modelSel t prev h

/-- C9 witness: concrete zero-attachment and two-attachment
submissions are no-ops. -/
theorem C9_silent_reject_witness :
    handleSubmit [] envAllOk "gemini" 3 [] = ([], []) ∧
    handleSubmit (msgSingle ++ msgOther) envAllOk "gemini" 3 [] = ([], []) :=
  ⟨C9_silent_reject [] envAllOk "gemini" 3 [] (by decide),
   C9_silent_reject (msgSingle ++ msgOther) envAllOk "gemini" 3 [] (by decide)⟩

/-- C5: reconciliation is frame-exact and order-preserving: each settle
rewrites exactly the position(s) whose id matches and leaves every other
position untouched, both settles preserve the id sequence (newest-first
order), and under distinct ids the two reconciliations commute, each job
receiving exactly its own outcome regardless of settlement order. -/
theorem C5_settle_frame (hist : List GeneratedImage) (id1 id2 url msg : String)
    (hne : id1 ≠ id2) :
    (∀ i : Nat, (settleSuccess id1 url hist)[i]? =
        (hist[i]?).map (fun j =>
          if j.id = id1 then { j with imageUrl := some url, isLoading := some false }
          else j)) ∧
    (∀ i : Nat, (settleFailure id2 msg hist)[i]? =
        (hist[i]?).map (fun j =>
          if j.id = id2 then { j with isLoading := some false, error := some msg }
          else j)) ∧
    (settleSuccess id1 url hist).map (fun j => j.id) = hist.map (fun j => j.id) ∧
    (settleFailure id2 msg hist).map (fun j => j.id) = hist.map (fun j => j.id) ∧
    settleFailure id2 msg (settleSuccess id1 url hist) =
      settleSuccess id1 url (settleFailure id2 msg hist) ∧
    (∀ i : Nat, (settleFailure id2 msg (settleSuccess id1 url hist))[i]? =
        (hist[i]?).map (fun j =>
          if j.id = id1 then { j with imageUrl := some url, isLoading := some false }
          else if j.id = id2 then { j with isLoading := some false, error := some msg }
          else j)) := by
  refine ⟨?_, ?_, settleSuccess_ids id1 url hist, settleFailure_ids id2 msg hist, ?_, ?_⟩
  · intro i
    simp [settleSuccess, List.getElem?_map]
  · intro i
    simp [settleFailure, List.getElem?_map]
  · unfold settleSuccess settleFailure
    rw [List.map_map, List.map_map]
    congr 1
    funext j
    simp only [Function.comp_apply]
    by_cases h1 : j.id = id1 <;> by_cases h2 : j.id = id2
    · exact absurd (h1.symm.trans h2) hne
    · simp [h1, h2, hne, Ne.symm hne]
    · simp [h1, h2, hne, Ne.symm hne]
    · simp [h1, h2, hne, Ne.symm hne]
  · intro i
    unfold settleSuccess settleFailure
    rw [List.map_map, List.getElem?_map]
    cases hist[i]? with
    | none => rfl
    | some j =>
        simp only [Option.map_some', Function.comp_apply]
        by_cases h1 : j.id = id1 <;> by_cases h2 : j.id = id2
        · exact absurd (h1.symm.trans h2) hne
        · simp [h1, h2, hne, Ne.symm hne]
        · simp [h1, h2, hne, Ne.symm hne]
        · simp [h1, h2, hne, Ne.symm hne]

/-- C5 witness: the frame theorem applied to a concrete two-job history
with distinct ids. -/
theorem C5_settle_frame_witness :
    (settleFailure "img_2" "boom" (settleSuccess "img_1" "data:ok" histTwo) =
      settleSuccess "img_1" "data:ok" (settleFailure "img_2" "boom" histTwo)) ∧
    (settleSuccess "img_1" "data:ok" histTwo).map (fun j => j.id) =
      histTwo.map (fun j => j.id) :=
  have h := C5_settle_frame histTwo "img_1" "img_2" "data:ok" "boom" (by decide)
  ⟨h.2.2.2.2.1, h.2.2.1⟩

/-- C6: each validator accepts exactly the bodies satisfying the
validation contract (generation: prompt a string of length 3 to 1000 and a
supported model discriminant; edit: additionally a non-empty all-string
image list); every rejection carries a structured message with HTTP status
400; and each route dispatches to a provider handler only when its
validator accepted the body. -/
theorem C6_validators (body : JSValue) :
    ((validateGenerateImageRequest body).isValid = true ↔
      genValidationContract body = true) ∧
    ((validateGenerateImageRequest body).isValid = false →
      ∃ e, (validateGenerateImageRequest body).error = some e ∧ e.status = 400) ∧
    ((validateEditImageRequest body).isValid = true ↔
      editValidationContract body = true) ∧
    ((validateEditImageRequest body).isValid = false →
      ∃ e, (validateEditImageRequest body).error = some e ∧ e.status = 400) ∧
    (∀ h p, generatePOST body = GenRouteOutcome.dispatched h p →
      (validateGenerateImageRequest body).isValid = true) ∧
    (∀ h p u, editPOST body = EditRouteOutcome.dispatched h p u →
      (validateEditImageRequest body).isValid = true) := by
  refine ⟨?_, validateGen_error_status body, ?_, validateEdit_error_status body, ?_, ?_⟩
  · rw [validateGen_isValid_eq]
  · rw [validateEdit_isValid_eq]
  · intro h p hd
    unfold generatePOST at hd
    by_cases hv : (validateGenerateImageRequest body).isValid = false
    · rw [if_pos hv] at hd
      split at hd <;> cases hd
    · simpa using hv
  · intro h p u hd
    unfold editPOST at hd
    by_cases hv : (validateEditImageRequest body).isValid = false
    · rw [if_pos hv] at hd
      split at hd <;> cases hd
    · simpa using hv

/-- C6 witness: the validator theorem applied to the spec's concrete
examples: a too-short prompt is rejected with status 400, and a valid
edit body is accepted. -/
theorem C6_validators_witness :
    (∃ e, (validateGenerateImageRequest bodyShort).error = some e ∧ e.status = 400) ∧
    (validateGenerateImageRequest bodyValidGen).isValid = true ∧
    (validateGenerateImageRequest bodyDalle).isValid = false ∧
    (validateEditImageRequest bodyValidEdit).isValid = true :=
  ⟨(C6_validators bodyShort).2.1 (by decide),
   (C6_validators bodyValidGen).1.mpr (by decide),
   by decide,
   (C6_validators bodyValidEdit).2.2.1.mpr (by decide)⟩

theorem providerOk_lookupGen (v : JSValue) (h : providerOk v = true) :
    (genProvidersLookup v).isSome = true := by
  cases v with
  | str m =>
      simp only [providerOk, decide_eq_true_eq] at h
      rcases h with h | h <;> subst h <;> rfl
  | undefinedVal => simp [providerOk] at h
  | null => simp [providerOk] at h
  | boolean b => simp [providerOk] at h
  | number n => simp [providerOk] at h
  | arr l => simp [providerOk] at h
  | obj f => simp [providerOk] at h

theorem providerOk_lookupEdit (v : JSValue) (h : providerOk v = true) :
    (editProvidersLookup v).isSome = true := by
  cases v with
  | str m =>
      simp only [providerOk, decide_eq_true_eq] at h
      rcases h with h | h <;> subst h <;> rfl
  | undefinedVal => simp [providerOk] at h
  | null => simp [providerOk] at h
  | boolean b => simp [providerOk] at h
  | number n => simp [providerOk] at h
  | arr l => simp [providerOk] at h
  | obj f => simp [providerOk] at h

/-- C10: in both POST routes, once validation has passed the discriminant
is necessarily one of the two keys of the handler table, so the lookup
always succeeds and the post-validation unsupported-provider 400 branch is
unreachable for every body. -/
theorem C10_lookup_total (body : JSValue) :
    ((validateGenerateImageRequest body).isValid = true →
      (genProvidersLookup (getField body "model")).isSome = true) ∧
    (∀ m, generatePOST body ≠ GenRouteOutcome.unsupportedModel m) ∧
    ((validateEditImageRequest body).isValid = true →
      (editProvidersLookup (getField body "provider")).isSome = true) ∧
    (∀ m, editPOST body ≠ EditRouteOutcome.unsupportedProvider m) := by
  have hgen : (validateGenerateImageRequest body).isValid = true →
      (genProvidersLookup (getField body "model")).isSome = true := by
    intro hv
    rw [validateGen_isValid_eq] at hv
    unfold genValidationContract at hv
    simp only [Bool.and_eq_true] at hv
    exact providerOk_lookupGen _ hv.2
  have hedit : (validateEditImageRequest body).isValid = true →
      (editProvidersLookup (getField body "provider")).isSome = true := by
    intro hv
    rw [validateEdit_isValid_eq] at hv
    unfold editValidationContract at hv
    simp only [Bool.and_eq_true] at hv
    exact providerOk_lookupEdit _ hv.1.2
  refine ⟨hgen, ?_, hedit, ?_⟩
  · intro m
    unfold generatePOST
    by_cases hv : (validateGenerateImageRequest body).isValid = false
    · rw [if_pos hv]
      split <;> simp
    · rw [if_neg hv]
      obtain ⟨hh, hsome⟩ := Option.isSome_iff_exists.mp (hgen (by simpa using hv))
      rw [hsome]
      simp
  · intro m
    unfold editPOST
    by_cases hv : (validateEditImageRequest body).isValid = false
    · rw [if_pos hv]
      split <;> simp
    · rw [if_neg hv]
      obtain ⟨hh, hsome⟩ := Option.isSome_iff_exists.mp (hedit (by simpa using hv))
      rw [hsome]
      simp

/-- C10 witness: the theorem applied to a concrete valid body: the lookup
succeeds and the route does not take the unsupported branch. -/
theorem C10_lookup_total_witness :
    (genProvidersLookup (getField bodyValidGen "model")).isSome = true ∧
    generatePOST bodyValidGen ≠ GenRouteOutcome.unsupportedModel (.str "openai") :=
  ⟨(C10_lookup_total bodyValidGen).1 (by decide),
   (C10_lookup_total bodyValidGen).2.1 (.str "openai")⟩

/-- C8 counterexample: with zero image encodings both edit handlers
proceed to the upstream provider request (with an empty image part list)
instead of reporting an error, refuting the claim that the handlers
themselves treat an empty list as an error. -/
theorem C8_counterexample :
    handleOpenAIEditStep (some "token") "a valid prompt" [] =
      OpenAIEditStep.upstreamRequest [] "a valid prompt" ∧
    handleGoogleEditStep "a valid prompt" [] =
      GoogleEditStep.upstreamRequest [GoogleContentPart.textPart "a valid prompt"] :=
  ⟨rfl, rfl⟩

/-- C8 (amended): the edit handlers perform no emptiness check and proceed
to the upstream request with zero image parts; emptiness is rejected only
by the edit route's validator before dispatch, so a body whose image list
is the empty array never passes validation. -/
theorem C8_no_empty_guard (prompt tok : String) (body : JSValue) :
    handleOpenAIEditStep (some tok) prompt [] =
      OpenAIEditStep.upstreamRequest [] prompt ∧
    handleGoogleEditStep prompt [] =
      GoogleEditStep.upstreamRequest [GoogleContentPart.textPart prompt] ∧
    (getField body "imageUrls" = JSValue.arr [] →
      (validateEditImageRequest body).isValid = false) := by
  refine ⟨rfl, rfl, ?_⟩
  intro hurl
  rw [validateEdit_isValid_eq]
  unfold editValidationContract
  rw [hurl]
  simp [imageUrlsOk]

/-- C8 witness: the amended theorem applied at a concrete prompt, token
and empty-list body. -/
theorem C8_no_empty_guard_witness :
    handleOpenAIEditStep (some "token") "another prompt" [] =
      OpenAIEditStep.upstreamRequest [] "another prompt" ∧
    (validateEditImageRequest bodyEmptyUrls).isValid = false :=
  have h := C8_no_empty_guard "another prompt" "token" bodyEmptyUrls
  ⟨h.1, h.2.2 rfl⟩

theorem base64_index_char : ∀ n < 64, base64Index (base64Char n) = n := by
  decide

theorem base64Char_ne_padding : ∀ n < 64, base64Char n ≠ '=' := by
  decide

theorem base64Char_lt_ne_comma : ∀ n < 64, base64Char n ≠ ',' := by
  decide

theorem base64Char_ne_comma (n : Nat) : base64Char n ≠ ',' := by
  by_cases h : n < 64
  · exact base64Char_lt_ne_comma n h
  · unfold base64Char
    rw [List.getD_eq_default]
    · decide
    · simp only [base64Chars, List.length]
      omega

theorem b64_encode_no_comma : ∀ l : List Byte, ',' ∉ b64EncodeBytes l
  | [] => by simp [b64EncodeBytes]
  | [a] => by
      intro hmem
      simp only [b64EncodeBytes, List.mem_cons, List.not_mem_nil, or_false] at hmem
      rcases hmem with h | h | h | h
      · exact base64Char_ne_comma _ h.symm
      · exact base64Char_ne_comma _ h.symm
      · cases h
      · cases h
  | [a, b] => by
      intro hmem
      simp only [b64EncodeBytes, List.mem_cons, List.not_mem_nil, or_false] at hmem
      rcases hmem with h | h | h | h
      · exact base64Char_ne_comma _ h.symm
      · exact base64Char_ne_comma _ h.symm
      · exact base64Char_ne_comma _ h.symm
      · cases h
  | a :: b :: c :: rest => by
      intro hmem
      simp only [b64EncodeBytes, List.mem_cons] at hmem
      rcases hmem with h | h | h | h | h
      · exact base64Char_ne_comma _ h.symm
      · exact base64Char_ne_comma _ h.symm
      · exact base64Char_ne_comma _ h.symm
      · exact base64Char_ne_comma _ h.symm
      · exact b64_encode_no_comma rest h

theorem b64_decode_encode : ∀ l : List Byte,
    b64DecodeChars (b64EncodeBytes l) = l.map (fun b => b.val)
  | [] => rfl
  | [a] => by
      have ha := a.isLt
      simp only [b64EncodeBytes, b64DecodeChars, List.map_cons, List.map_nil]
      split_ifs with h1
      · rw [base64_index_char _ (by omega), base64_index_char _ (by omega)]
        simp only [List.cons.injEq, and_true]
        omega
      · simp at h1
  | [a, b] => by
      have ha := a.isLt
      have hb := b.isLt
      simp only [b64EncodeBytes, b64DecodeChars, List.map_cons, List.map_nil]
      split_ifs with h1
      · exact absurd h1 (base64Char_ne_padding _ (by omega))
      · rw [base64_index_char _ (by omega), base64_index_char _ (by omega),
          base64_index_char _ (by omega)]
        simp only [List.cons.injEq, and_true]
        constructor <;> omega
  | a :: b :: c :: rest => by
      have ha := a.isLt
      have hb := b.isLt
      have hc := c.isLt
      have ih := b64_decode_encode rest
      simp only [b64EncodeBytes, b64DecodeChars, List.map_cons]
      split_ifs with h1 h2
      · exact absurd h1 (base64Char_ne_padding _ (by omega))
      · exact absurd h2 (base64Char_ne_padding _ (by omega))
      · rw [base64_index_char _ (by omega), base64_index_char _ (by omega),
          base64_index_char _ (by omega), base64_index_char _ (by omega)]
        rw [ih]
        simp only [List.cons.injEq]
        refine ⟨by omega, by omega, by omega, trivial⟩

theorem splitCommaAux_no_comma (r : List Char) :
    ∀ acc : List Char, (∀ ch ∈ r, ch ≠ ',') →
      splitCommaAux r acc = [acc.reverse ++ r] := by
  induction r with
  | nil => intro acc h; simp [splitCommaAux]
  | cons ch rest ih =>
      intro acc h
      rw [splitCommaAux, if_neg (h ch (by simp)),
        ih (ch :: acc) (fun x hx => h x (by simp [hx]))]
      simp

theorem splitCommaAux_append (l : List Char) (r : List Char)
    (hr : ∀ ch ∈ r, ch ≠ ',') :
    ∀ acc : List Char, (∀ ch ∈ l, ch ≠ ',') →
      splitCommaAux (l ++ ',' :: r) acc = [acc.reverse ++ l, r] := by
  induction l with
  | nil =>
      intro acc h
      rw [List.nil_append, splitCommaAux, if_pos rfl,
        splitCommaAux_no_comma r [] hr]
      simp
  | cons ch rest ih =>
      intro acc h
      rw [List.cons_append, splitCommaAux, if_neg (h ch (by simp)),
        ih (ch :: acc) (fun x hx => h x (by simp [hx]))]
      simp

theorem bytes_mod_roundtrip (l : List Byte) :
    (l.map (fun b => b.val)).map
      (fun n => (⟨n % 256, Nat.mod_lt _ (by decide)⟩ : Byte)) = l := by
  induction l with
  | nil => rfl
  | cons a tl ih =>
      simp only [List.map_cons, ih, List.cons.injEq, and_true]
      exact Fin.ext (Nat.mod_eq_of_lt a.isLt)

/-- C7: encoding a byte buffer of media type `image/png` into the durable
data-URL format with `fileToDataUrl` and decoding it back with
`dataUrlToFile` yields exactly the original bytes and the original media
type. -/
theorem C7_dataUrl_roundtrip (bytes : List Byte) (origName filename : String) :
    dataUrlToFile
        (fileToDataUrl { bytes := bytes, name := origName, type := "image/png" })
        filename =
      { bytes := bytes, name := filename, type := "image/png" } := by
  have hnc : ∀ ch ∈ b64EncodeBytes bytes, ch ≠ ',' :=
    fun ch hch he => absurd (he ▸ hch) (b64_encode_no_comma bytes)
  have hdata : (fileToDataUrl { bytes := bytes, name := origName, type := "image/png" }).data
      = "data:image/png;base64".data ++ ',' :: b64EncodeBytes bytes := by
    show ("data:" ++ "image/png" ++ ";base64," ++ String.mk (b64EncodeBytes bytes)).data = _
    simp only [String.data_append]
    have hlit : ("data:".data ++ "image/png".data) ++ ";base64,".data
        = "data:image/png;base64".data ++ [','] := by decide
    rw [hlit, List.append_assoc]
    rfl
  have hsplit : jsSplitComma
      (fileToDataUrl { bytes := bytes, name := origName, type := "image/png" }) =
      ["data:image/png;base64", String.mk (b64EncodeBytes bytes)] := by
    unfold jsSplitComma
    rw [hdata, splitCommaAux_append _ _ hnc [] (by decide)]
    simp
  have hmime : mimeMatch ("data:image/png;base64" : String).data
      = some ("image/png" : String).data := by decide
  unfold dataUrlToFile
  rw [hsplit]
  simp only [List.getD_cons_zero, List.getD_cons_succ]
  rw [hmime]
  show EmbFile.mk ((b64DecodeChars (b64EncodeBytes bytes)).map _) _ _ = _
  rw [b64_decode_encode bytes, bytes_mod_roundtrip]

end Spec2Proof
